import Mathlib

/-!
# Verification of the TS3 query-protocol library (keko.ts3api)

Shallow embedding of the protocol codec (`keko/ts3api/protocol.py`), the
error model (`keko/ts3api/exceptions.py` and `_parse_error` in
`keko/ts3api/connection.py`), the event model (`keko/ts3api/events.py`) and
the line classifier / command-call state handling of the connection engine
(`keko/ts3api/connection.py`).

Strings are modelled as `List Char`; Python `str.replace` with the one- and
two-character patterns the codec uses is modelled by `replace1` and
`replace2`; Python dicts are modelled as association lists with
insert-or-update semantics (first occurrence keeps its position, value is
updated), which reproduces CPython's ordered-dict observable behaviour.
-/

namespace KekoTS3

/-- Models Python `s.startswith(pat)`: `startsWith pat s` is true when `pat`
is an initial segment of `s`. -/
def startsWith : List Char → List Char → Bool
  | [], _ => true
  | _ :: _, [] => false
  | p :: ps, c :: cs => p = c && startsWith ps cs

/-- Models Python `s.split(sep)` for a single-character separator: keeps
empty pieces, `splitOnChar c [] = [[]]` just as `"".split(sep) == ['']`. -/
def splitOnChar (sep : Char) : List Char → List (List Char)
  | [] => [[]]
  | x :: rest =>
    match splitOnChar sep rest with
    | [] => [[]]
    | h :: t => if x = sep then [] :: h :: t else (x :: h) :: t

/-- Models Python `s.split(sep, 1)` for a single-character separator,
returning the part before the first separator and the part after it (the
second component is `[]` when the separator does not occur, matching the
use sites, which substitute `""` for a missing second part). -/
def splitOnceChar (sep : Char) : List Char → (List Char × List Char)
  | [] => ([], [])
  | x :: rest =>
    if x = sep then ([], rest)
    else
      let p := splitOnceChar sep rest
      (x :: p.1, p.2)

/-- Models Python `raw.replace(c, rep)` for a one-character pattern `c`:
every occurrence of `c` is replaced by `rep`. -/
def replace1 (c : Char) (rep : List Char) : List Char → List Char
  | [] => []
  | x :: rest => if x = c then rep ++ replace1 c rep rest else x :: replace1 c rep rest

/-- Models Python `raw.replace(ab, r)` for a two-character pattern `a,b` and
a one-character replacement `r`: leftmost, non-overlapping occurrences are
replaced and scanning resumes after the replacement. -/
def replace2 (a b : Char) (r : Char) : List Char → List Char
  | [] => []
  | [x] => [x]
  | x :: y :: rest =>
    if x = a ∧ y = b then r :: replace2 a b r rest
    else x :: replace2 a b r (y :: rest)

/-- `_ESCAPE_MAP` from `keko/ts3api/protocol.py`, in the source's order.
Each source entry `(c, "\\" + x)` (a raw character and its two-character
escape sequence) is represented by the pair `(c, x)`. -/
def escapeMap : List (Char × Char) :=
  [('\\', '\\'),
   ('/', '/'),
   (' ', 's'),
   ('|', 'p'),
   ('\x07', 'a'),
   ('\x08', 'b'),
   ('\x0c', 'f'),
   ('\n', 'n'),
   ('\r', 'r'),
   ('\t', 't'),
   ('\x0b', 'v')]

/-- The loop body of `escape` abstracted over the table: `escWith m`
performs, in order of `m`, the replacements `raw = raw.replace(c, "\\" + x)`. -/
def escWith (m : List (Char × Char)) (raw : List Char) : List Char :=
  m.foldl (fun acc p => replace1 p.1 ['\\', p.2] acc) raw

/-- The loop body of `unescape` abstracted over the table: `unescWith m`
performs, in order of `m.reverse`, the replacements
`raw = raw.replace("\\" + x, c)`. -/
def unescWith (m : List (Char × Char)) (raw : List Char) : List Char :=
  m.reverse.foldl (fun acc p => replace2 '\\' p.2 p.1 acc) raw

/-- `escape` from `keko/ts3api/protocol.py`. -/
def escape (raw : List Char) : List Char := escWith escapeMap raw

/-- `unescape` from `keko/ts3api/protocol.py`. -/
def unescape (raw : List Char) : List Char := unescWith escapeMap raw

/-- The substitution table in the order stated by the specification's
component-design wording: backslash, space, pipe, bell, backspace,
form-feed, newline, carriage return, tab, vertical tab, forward slash —
same character/sequence pairs as `escapeMap`, with the forward-slash entry
moved to the end. -/
def escapeMapSpecOrder : List (Char × Char) :=
  [('\\', '\\'),
   (' ', 's'),
   ('|', 'p'),
   ('\x07', 'a'),
   ('\x08', 'b'),
   ('\x0c', 'f'),
   ('\n', 'n'),
   ('\r', 'r'),
   ('\t', 't'),
   ('\x0b', 'v'),
   ('/', '/')]

/-- `escape` as the specification's wording orders the table. -/
def escapeSpecOrdered (raw : List Char) : List Char := escWith escapeMapSpecOrder raw

/-- `unescape` as the specification's wording orders the table (same table
reversed, backslash unescaped last). -/
def unescapeSpecOrdered (raw : List Char) : List Char := unescWith escapeMapSpecOrder raw

/-- First-match association lookup, used to state single-pass normal forms
of the sequential unescape replacements. -/
def lookupTbl (y : Char) : List (Char × Char) → Option Char
  | [] => none
  | p :: rest => if y = p.1 then some p.2 else lookupTbl y rest

/-- One left-to-right pass replacing every non-overlapping occurrence of
`a :: k` by `v` for each `(k, v)` in `tbl`: the normal form to which the
sequential two-character replacements of `unescape` are reduced. -/
def unescScan (a : Char) (tbl : List (Char × Char)) : List Char → List Char
  | [] => []
  | [x] => [x]
  | x :: y :: rest =>
    if x = a then
      match lookupTbl y tbl with
      | some r => r :: unescScan a tbl rest
      | none => x :: unescScan a tbl (y :: rest)
    else x :: unescScan a tbl (y :: rest)

/-- The ten non-backslash unescape passes of the source order as one lookup
table (the order the reversed `escapeMap` applies them). -/
def unescTblSource : List (Char × Char) :=
  [('v', '\x0b'), ('t', '\t'), ('r', '\r'), ('n', '\n'), ('f', '\x0c'),
   ('b', '\x08'), ('a', '\x07'), ('p', '|'), ('s', ' '), ('/', '/')]

/-- The ten non-backslash unescape passes of the specification's order as
one lookup table. -/
def unescTblSpecOrder : List (Char × Char) :=
  [('/', '/'), ('v', '\x0b'), ('t', '\t'), ('r', '\r'), ('n', '\n'),
   ('f', '\x0c'), ('b', '\x08'), ('a', '\x07'), ('p', '|'), ('s', ' ')]

/-- Association list modelling a Python `dict[str, str]`; `dictInsert`
models `d[k] = v`: the first entry with key `k` keeps its position and gets
the new value, a fresh key is appended. -/
def dictInsert (k v : List Char) : List (List Char × List Char) → List (List Char × List Char)
  | [] => [(k, v)]
  | p :: rest => if p.1 = k then (k, v) :: rest else p :: dictInsert k v rest

/-- Models `k in d` on the dict model. -/
def dictHasKey (k : List Char) : List (List Char × List Char) → Bool
  | [] => false
  | p :: rest => p.1 = k || dictHasKey k rest

/-- Models `d.get(k, default)` on the dict model. -/
def dictGet (k default : List Char) : List (List Char × List Char) → List Char
  | [] => default
  | p :: rest => if p.1 = k then p.2 else dictGet k default rest

/-- Models `d[k]` lookup (used where the source has checked `k in d`). -/
def dictFind (k : List Char) : List (List Char × List Char) → Option (List Char)
  | [] => none
  | p :: rest => if p.1 = k then some p.2 else dictFind k rest

/-- The token loop of `parse_response_to_dict`: a token containing `=` is
split at the first `=` into key and unescaped value; a non-empty bare
token becomes a flag entry with empty value; empty tokens are ignored. -/
def parseDictAux : List (List Char) → List (List Char × List Char) → List (List Char × List Char)
  | [], result => result
  | part :: rest, result =>
    if part.contains '=' then
      parseDictAux rest
        (dictInsert (splitOnceChar '=' part).1 (unescape (splitOnceChar '=' part).2) result)
    else if part ≠ [] then parseDictAux rest (dictInsert part [] result)
    else parseDictAux rest result

/-- `parse_response_to_dict` from `keko/ts3api/protocol.py`: split the line
on spaces and run the token loop on an empty dict. -/
def parse_response_to_dict (response : List Char) : List (List Char × List Char) :=
  parseDictAux (splitOnChar ' ' response) []

/-- `parse_response_to_list` from `keko/ts3api/protocol.py`: split on the
record separator `|` and parse each non-empty item. -/
def parse_response_to_list (response : List Char) : List (List (List Char × List Char)) :=
  ((splitOnChar '|' response).filter (fun item => item ≠ [])).map parse_response_to_dict

/-- A Python `str | int` command-parameter value as `build_command` accepts
it via `**kwargs`. -/
inductive PyVal where
  | s (v : List Char)
  | i (n : Int)
deriving DecidableEq

/-- Models Python `str(v)` on the `str | int` values of `build_command`. -/
def pyStr : PyVal → List Char
  | .s v => v
  | .i n => (toString n).data

/-- `build_command` from `keko/ts3api/protocol.py`: the verb, then each
positional flag prefixed with `-`, then each keyword pair as
`key=escape(str(value))`, joined by single spaces and terminated by the
two characters newline + carriage return (the UTF-8 encoding to bytes is
the identity on these character sequences). -/
def build_command (command : List Char) (args : List (List Char))
    (kwargs : List (List Char × PyVal)) : List Char :=
  let parts := [command] ++ args.map (fun a => '-' :: a)
    ++ kwargs.map (fun p => p.1 ++ '=' :: escape (pyStr p.2))
  (List.intercalate [' '] parts) ++ ['\n', '\r']

/-- The code points of the whitespace characters CPython `int()` strips
around a numeral (enumerated from CPython 3.11, Unicode 14.0: the ASCII
whitespace plus NEL, NBSP, ogham space mark, the U+2000–U+200A spaces,
line/paragraph separator, narrow no-break space, medium mathematical
space and ideographic space). -/
def pyIntWsCodes : List Nat :=
  [9, 10, 11, 12, 13, 32, 133, 160, 5760, 8192, 8193, 8194, 8195, 8196,
   8197, 8198, 8199, 8200, 8201, 8202, 8232, 8233, 8239, 8287, 12288]

/-- Whether CPython `int()` strips this character as surrounding
whitespace. -/
def pyIntWs (c : Char) : Bool := pyIntWsCodes.contains c.toNat

/-- The first code point of each contiguous run of ten Unicode decimal
digits (category Nd) that CPython `int()` accepts, the k-th code point of
a run denoting the digit k (enumerated from CPython 3.11, Unicode 14.0;
Nd digits always come in such runs of ten). -/
def decDigitStarts : List Nat :=
  [48, 1632, 1776, 1984, 2406, 2534, 2662, 2790, 2918, 3046, 3174, 3302,
   3430, 3558, 3664, 3792, 3872, 4160, 4240, 6112, 6160, 6470, 6608, 6784,
   6800, 6992, 7088, 7232, 7248, 42528, 43216, 43264, 43472, 43504, 43600,
   44016, 65296, 66720, 68912, 69734, 69872, 69942, 70096, 70384, 70736,
   70864, 71248, 71360, 71472, 71904, 72016, 72784, 73040, 73120, 92768,
   92864, 93008, 120782, 120792, 120802, 120812, 120822, 123200, 123632,
   125264, 130032]

/-- The decimal value of a Unicode decimal digit as `int()` reads it,
`none` for any other character. -/
def decDigitVal (c : Char) : Option Nat :=
  (decDigitStarts.find? (fun s => decide (s ≤ c.toNat ∧ c.toNat ≤ s + 9))).map
    (fun s => c.toNat - s)

/-- Continues a digit run after its first digit: further digits accumulate
left to right, a single grouping underscore is allowed only between two
digits (PEP 515), anything else fails. -/
def digitsRest (acc : Nat) : List Char → Option Nat
  | [] => some acc
  | '_' :: c :: rest =>
    match decDigitVal c with
    | some d => digitsRest (acc * 10 + d) rest
    | none => none
  | ['_'] => none
  | c :: rest =>
    match decDigitVal c with
    | some d => digitsRest (acc * 10 + d) rest
    | none => none

/-- A nonempty digit run with grouping underscores — the part of an `int()`
numeral after the optional sign. -/
def digitsU : List Char → Option Nat
  | [] => none
  | c :: rest =>
    match decDigitVal c with
    | some d => digitsRest d rest
    | none => none

/-- Strips the whitespace `int()` strips from both ends. -/
def stripIntWs (s : List Char) : List Char :=
  ((s.dropWhile pyIntWs).reverse.dropWhile pyIntWs).reverse

/-- Models CPython `int(s)`: strip surrounding whitespace, then an optional
ASCII sign followed by a nonempty run of Unicode decimal digits with
single grouping underscores between digits parses to the signed value;
anything else raises `ValueError` (`none`). Validated differentially
against CPython on targeted edge cases (underscore grouping, padding,
sign placement, non-ASCII and mixed-script numerals) and random fuzzing. -/
def pyInt (s : List Char) : Option Int :=
  match stripIntWs s with
  | '-' :: body => (digitsU body).map (fun n => -(n : Int))
  | '+' :: body => (digitsU body).map (fun n => (n : Int))
  | body => (digitsU body).map (fun n => (n : Int))

/-- `_int` from `keko/ts3api/events.py`: `int(value)` with a fallback
default on conversion failure. -/
def pyIntD (value : List Char) (default : Int) : Int :=
  (pyInt value).getD default

/-- `_bool` from `keko/ts3api/events.py`: true only for the literal "1". -/
def pyBool (value : List Char) : Bool := value = ['1']

/-- Modelled from the spec: the numeric-id-to-named-error-code enum
`TS3ErrorCode` lives in `keko/ts3api/types.py`, which is absent from the
sources at hand; the spec fixes only that the mapping is a lookup table
whose exact values are implementation-specific and that ids outside it map
to an "undefined" sentinel. `mapped id` stands for the named member for a
tabulated id. -/
inductive TS3ErrorCode where
  | undefined
  | mapped (id : Int)
deriving DecidableEq

/-- Modelled from the spec: the set of ids tabulated by the `TS3ErrorCode`
enum. Only id 0 (success, "ok") is fixed by the spec; the rest of the
table is implementation-specific and irrelevant to every property proved
here. -/
def ts3ErrorCodeIds : List Int := [0]

/-- Modelled from the spec: `TS3ErrorCode(error_id)` with the
`except ValueError` fallback of `TS3QueryError.__init__` — a tabulated id
yields its named member, any other id the `undefined` sentinel. -/
def TS3ErrorCode.ofId (id : Int) : TS3ErrorCode :=
  if id ∈ ts3ErrorCodeIds then .mapped id else .undefined

/-- `TS3QueryError` from `keko/ts3api/exceptions.py`: numeric id, message
and mapped code. -/
structure TS3QueryError where
  error_id : Int
  error_message : List Char
  error_code : TS3ErrorCode
deriving DecidableEq

/-- `TS3QueryError.__init__`: stores the id, the unescaped message, and the
code from the id lookup (undefined fallback). -/
def mkTS3QueryError (error_id : Int) (message : List Char) : TS3QueryError :=
  { error_id := error_id
    error_message := unescape message
    error_code := TS3ErrorCode.ofId error_id }

/-- The token loop of `_parse_error` (`keko/ts3api/connection.py`): scan the
tokens after the leading `error` for `id=` and `msg=`, later tokens
overriding earlier ones; `int(part[3:])` on a malformed id raises
(`Except.error`). -/
def parseErrorTokens (error_id : Int) (error_msg : List Char) :
    List (List Char) → Except Unit (Int × List Char)
  | [] => .ok (error_id, error_msg)
  | part :: rest =>
    if startsWith "id=".data part then
      match pyInt (part.drop 3) with
      | some n => parseErrorTokens n error_msg rest
      | none => .error ()
    else if startsWith "msg=".data part then
      parseErrorTokens error_id (part.drop 4) rest
    else parseErrorTokens error_id error_msg rest

/-- `_parse_error` from `keko/ts3api/connection.py`: defaults are id 0 and
message "ok"; id 0 yields no failure (`none`), a nonzero id yields the
typed `TS3QueryError`; a malformed id value propagates the `ValueError`
raised by `int()`. -/
def parse_error (line : List Char) : Except Unit (Option TS3QueryError) :=
  match parseErrorTokens 0 "ok".data ((splitOnChar ' ' line).drop 1) with
  | .error e => .error e
  | .ok st => if st.1 ≠ 0 then .ok (some (mkTS3QueryError st.1 st.2)) else .ok none

/-- `TargetMode` from `keko/ts3api/events.py`. -/
inductive TargetMode where
  | PRIVATE
  | CHANNEL
  | SERVER
deriving DecidableEq

/-- `TargetMode(value)`: the enum constructor, `none` modelling the
`ValueError` on an unmapped value. -/
def targetModeOfInt : Int → Option TargetMode
  | 1 => some .PRIVATE
  | 2 => some .CHANNEL
  | 3 => some .SERVER
  | _ => none

/-- The closed set of typed events from `keko/ts3api/events.py`; every
variant carries the raw key/value map (`raw_data`) plus its typed fields in
the dataclass field order. -/
inductive TS3Event where
  | textMessage (raw_data : List (List Char × List Char)) (target_mode : TargetMode)
      (message : List Char) (invoker_id : Int) (invoker_name invoker_uid : List Char)
      (target : Option Int)
  | clientEntered (raw_data : List (List Char × List Char)) (client_id : Int)
      (client_name client_uid : List Char) (client_dbid : Int)
      (target_channel_id from_channel_id reason_id : Int)
      (client_description client_country : List Char) (client_away : Bool)
      (client_away_message client_servergroups : List Char)
      (client_input_muted client_output_muted client_is_recording : Bool)
  | clientLeft (raw_data : List (List Char × List Char))
      (client_id target_channel_id from_channel_id reason_id : Int)
      (reason_message : List Char)
  | clientMoved (raw_data : List (List Char × List Char))
      (client_id target_channel_id reason_id invoker_id : Int)
      (invoker_name invoker_uid : List Char)
  | clientMovedSelf (raw_data : List (List Char × List Char))
      (client_id target_channel_id reason_id : Int)
  | channelEdited (raw_data : List (List Char × List Char))
      (channel_id invoker_id : Int) (invoker_name invoker_uid : List Char)
      (reason_id : Int) (channel_topic : List Char)
  | channelDescriptionEdited (raw_data : List (List Char × List Char))
      (channel_id : Int)
  | serverEdited (raw_data : List (List Char × List Char)) (invoker_id : Int)
      (invoker_name invoker_uid : List Char) (reason_id : Int)
      (changed_properties : List (List Char × List Char))
deriving DecidableEq

/-- `parse_event` from `keko/ts3api/events.py`: dispatch on the event type
string; an unrecognized type is logged and yields `none`. -/
def parse_event (event_type : List Char) (data : List (List Char × List Char)) :
    Option TS3Event :=
  if event_type = "notifytextmessage".data then
    let mode_val := pyIntD (dictGet "targetmode".data "1".data data) 1
    let target_mode := (targetModeOfInt mode_val).getD .PRIVATE
    some (.textMessage data target_mode
      (dictGet "msg".data [] data)
      (pyIntD (dictGet "invokerid".data "-1".data data) (-1))
      (dictGet "invokername".data [] data)
      (dictGet "invokeruid".data [] data)
      ((dictFind "target".data data).map (fun v => pyIntD v (-1))))
  else if event_type = "notifycliententerview".data then
    some (.clientEntered data
      (pyIntD (dictGet "clid".data "-1".data data) (-1))
      (dictGet "client_nickname".data [] data)
      (dictGet "client_unique_identifier".data [] data)
      (pyIntD (dictGet "client_database_id".data "-1".data data) (-1))
      (pyIntD (dictGet "ctid".data "-1".data data) (-1))
      (pyIntD (dictGet "cfid".data "-1".data data) (-1))
      (pyIntD (dictGet "reasonid".data "-1".data data) (-1))
      (dictGet "client_description".data [] data)
      (dictGet "client_country".data [] data)
      (pyBool (dictGet "client_away".data "0".data data))
      (dictGet "client_away_message".data [] data)
      (dictGet "client_servergroups".data [] data)
      (pyBool (dictGet "client_input_muted".data "0".data data))
      (pyBool (dictGet "client_output_muted".data "0".data data))
      (pyBool (dictGet "client_is_recording".data "0".data data)))
  else if event_type = "notifyclientleftview".data then
    some (.clientLeft data
      (pyIntD (dictGet "clid".data "-1".data data) (-1))
      (pyIntD (dictGet "ctid".data "-1".data data) (-1))
      (pyIntD (dictGet "cfid".data "-1".data data) (-1))
      (pyIntD (dictGet "reasonid".data "-1".data data) (-1))
      (dictGet "reasonmsg".data [] data))
  else if event_type = "notifyclientmoved".data then
    if dictHasKey "invokerid".data data then
      some (.clientMoved data
        (pyIntD (dictGet "clid".data "-1".data data) (-1))
        (pyIntD (dictGet "ctid".data "-1".data data) (-1))
        (pyIntD (dictGet "reasonid".data "-1".data data) (-1))
        (pyIntD (dictGet "invokerid".data "-1".data data) (-1))
        (dictGet "invokername".data [] data)
        (dictGet "invokeruid".data [] data))
    else
      some (.clientMovedSelf data
        (pyIntD (dictGet "clid".data "-1".data data) (-1))
        (pyIntD (dictGet "ctid".data "-1".data data) (-1))
        (pyIntD (dictGet "reasonid".data "-1".data data) (-1)))
  else if event_type = "notifychanneledited".data then
    some (.channelEdited data
      (pyIntD (dictGet "cid".data "-1".data data) (-1))
      (pyIntD (dictGet "invokerid".data "-1".data data) (-1))
      (dictGet "invokername".data [] data)
      (dictGet "invokeruid".data [] data)
      (pyIntD (dictGet "reasonid".data "-1".data data) (-1))
      (dictGet "channel_topic".data [] data))
  else if event_type = "notifychanneldescriptionchanged".data then
    some (.channelDescriptionEdited data
      (pyIntD (dictGet "cid".data "-1".data data) (-1)))
  else if event_type = "notifyserveredited".data then
    let known_keys := ["reasonid".data, "invokerid".data, "invokeruid".data,
      "invokername".data]
    some (.serverEdited data
      (pyIntD (dictGet "invokerid".data "-1".data data) (-1))
      (dictGet "invokername".data [] data)
      (dictGet "invokeruid".data [] data)
      (pyIntD (dictGet "reasonid".data "-1".data data) (-1))
      (data.filter (fun p => p.1 ∉ known_keys)))
  else none

/-- The token loop of the field-map construction inside `_parse_notify`
(`keko/ts3api/connection.py`): only tokens containing `=` are kept, split
at the first `=` with the value unescaped; bare tokens are dropped. -/
def parseNotifyFieldsAux : List (List Char) → List (List Char × List Char) → List (List Char × List Char)
  | [], data => data
  | part :: rest, data =>
    if part.contains '=' then
      parseNotifyFieldsAux rest
        (dictInsert (splitOnceChar '=' part).1 (unescape (splitOnceChar '=' part).2) data)
    else parseNotifyFieldsAux rest data

/-- The field map `_parse_notify` builds from the data part of a notify
line: split on spaces and run the token loop on an empty dict. -/
def parseNotifyFields (data_str : List Char) : List (List Char × List Char) :=
  parseNotifyFieldsAux (splitOnChar ' ' data_str) []

/-- `_parse_notify` from `keko/ts3api/connection.py`: the event type is the
text before the first space, the rest is parsed into the raw field map and
handed to `parse_event`. -/
def parse_notify (line : List Char) : Option TS3Event :=
  let parts := splitOnceChar ' ' line
  parse_event parts.1 (parseNotifyFields parts.2)

/-- Whether a parse result is the moved-by-other variant
(`ClientMovedEvent`). -/
def isClientMovedByOther : Option TS3Event → Bool
  | some (.clientMoved _ _ _ _ _ _ _) => true
  | _ => false

/-- Whether a parse result is the moved-self variant
(`ClientMovedSelfEvent`). -/
def isClientMovedSelf : Option TS3Event → Bool
  | some (.clientMovedSelf _ _ _ _) => true
  | _ => false

/-- The connection-engine state the receive loop and `_send` share:
the pending-response buffer, the pending-error slot (`None` both before a
terminal line arrives and after a success line, exactly as in the source),
the event queue, and whether the command lock is held. -/
structure ConnState where
  pending_response : List (List Char)
  response_error : Option TS3QueryError
  event_queue : List TS3Event
  send_lock : Bool
deriving DecidableEq

/-- One iteration of the receive loop's line classifier
(`_receive_loop` in `keko/ts3api/connection.py`): a line starting with
`notify` is parsed and, when an event results, enqueued; otherwise a line
starting with `error` is parsed into the pending-error slot (an exception
from `_parse_error` is caught by the loop's generic handler, leaving the
state unchanged); every other line is appended to the pending-response
buffer. -/
def processLine (s : ConnState) (line : List Char) : ConnState :=
  if startsWith "notify".data line then
    match parse_notify line with
    | some e => { s with event_queue := s.event_queue ++ [e] }
    | none => s
  else if startsWith "error".data line then
    match parse_error line with
    | .ok err => { s with response_error := err }
    | .error _ => s
  else { s with pending_response := s.pending_response ++ [line] }

/-- How a command call can leave `_send`: a typed query failure, the
distinguished timeout failure, or a normal return. -/
inductive SendOutcome where
  | ok (response : List Char)
  | queryError (e : TS3QueryError)
  | timeout
deriving DecidableEq

/-- The state `_send` establishes after acquiring the command lock and
before writing the command: previous response buffer and error slot are
cleared unconditionally. -/
def sendEnter (s : ConnState) : ConnState :=
  { s with send_lock := true, pending_response := [], response_error := none }

/-- The terminal-line handling at the end of `_send`: with the error slot
populated, clear it, raise the typed failure on a nonzero id, otherwise
return the joined buffer and clear it. The lock is released on every exit
path. -/
def sendFinish (s : ConnState) (err : TS3QueryError) : SendOutcome × ConnState :=
  if err.error_id ≠ 0 then
    (.queryError err, { s with response_error := none, send_lock := false })
  else
    (.ok (s.pending_response.flatten),
      { s with response_error := none, pending_response := [], send_lock := false })

/-- The response-wait loop of `_send`: while the error slot is empty,
wait — modelled by consuming the schedule of lines the receive loop
processes during the wait; an exhausted schedule is an expired timeout,
which raises the timeout failure out of both `async with` blocks,
releasing the lock. -/
def sendAwait (s : ConnState) : List (List Char) → SendOutcome × ConnState
  | [] =>
    match s.response_error with
    | some err => sendFinish s err
    | none => (.timeout, { s with send_lock := false })
  | line :: rest =>
    match s.response_error with
    | some err => sendFinish s err
    | none => sendAwait (processLine s line) rest

/-- `_send` from `keko/ts3api/connection.py`, abstracted over the schedule
of inbound lines the receive loop delivers while the call waits: acquire
the lock, clear the buffers, then wait for the error slot within the
timeout. -/
def send (s : ConnState) (sched : List (List Char)) : SendOutcome × ConnState :=
  sendAwait (sendEnter s) sched

/- ======================================================================
   Theorems
   ====================================================================== -/

theorem replace1_append (c : Char) (rep l1 l2 : List Char) :
    replace1 c rep (l1 ++ l2) = replace1 c rep l1 ++ replace1 c rep l2 := by
  induction l1 with
  | nil => rfl
  | cons x t ih =>
    by_cases h : x = c <;> simp [replace1, h, ih]

theorem escWith_cons (p : Char × Char) (m : List (Char × Char)) (l : List Char) :
    escWith (p :: m) l = escWith m (replace1 p.1 ['\\', p.2] l) := rfl

theorem escWith_append (m : List (Char × Char)) (l1 l2 : List Char) :
    escWith m (l1 ++ l2) = escWith m l1 ++ escWith m l2 := by
  induction m generalizing l1 l2 with
  | nil => rfl
  | cons p t ih =>
    rw [escWith_cons, escWith_cons, escWith_cons, replace1_append, ih]

theorem escWith_singleton_orders (c : Char) :
    escWith escapeMap [c] = escWith escapeMapSpecOrder [c] := by
  by_cases h1 : c = '\\'
  · subst h1; decide
  by_cases h2 : c = '/'
  · subst h2; decide
  by_cases h3 : c = ' '
  · subst h3; decide
  by_cases h4 : c = '|'
  · subst h4; decide
  by_cases h5 : c = '\x07'
  · subst h5; decide
  by_cases h6 : c = '\x08'
  · subst h6; decide
  by_cases h7 : c = '\x0c'
  · subst h7; decide
  by_cases h8 : c = '\n'
  · subst h8; decide
  by_cases h9 : c = '\r'
  · subst h9; decide
  by_cases h10 : c = '\t'
  · subst h10; decide
  by_cases h11 : c = '\x0b'
  · subst h11; decide
  simp [escWith, escapeMap, escapeMapSpecOrder, replace1,
    h1, h2, h3, h4, h5, h6, h7, h8, h9, h10, h11]

theorem escape_eq_escapeSpecOrdered (l : List Char) :
    escape l = escapeSpecOrdered l := by
  induction l with
  | nil => rfl
  | cons c t ih =>
    have hc : (c :: t) = [c] ++ t := rfl
    calc escWith escapeMap (c :: t)
        = escWith escapeMap [c] ++ escWith escapeMap t := by
          rw [hc, escWith_append]
      _ = escWith escapeMapSpecOrder [c] ++ escWith escapeMapSpecOrder t := by
          rw [escWith_singleton_orders]; exact congrArg _ ih
      _ = escWith escapeMapSpecOrder (c :: t) := by
          rw [hc, escWith_append]

theorem lookupTbl_append_of_some {y v : Char} {t1 : List (Char × Char)}
    (t2 : List (Char × Char)) (h : lookupTbl y t1 = some v) :
    lookupTbl y (t1 ++ t2) = some v := by
  induction t1 with
  | nil => simp [lookupTbl] at h
  | cons p t ih =>
    by_cases hy : y = p.1
    · simpa [lookupTbl, hy] using h
    · simp [lookupTbl, hy] at h ⊢; exact ih h

theorem lookupTbl_append_of_none {y : Char} {t1 : List (Char × Char)}
    (t2 : List (Char × Char)) (h : lookupTbl y t1 = none) :
    lookupTbl y (t1 ++ t2) = lookupTbl y t2 := by
  induction t1 with
  | nil => rfl
  | cons p t ih =>
    by_cases hy : y = p.1
    · simp [lookupTbl, hy] at h
    · simp [lookupTbl, hy] at h ⊢; exact ih h

theorem lookupTbl_mem {y v : Char} {tbl : List (Char × Char)}
    (h : lookupTbl y tbl = some v) : (y, v) ∈ tbl := by
  induction tbl with
  | nil => simp [lookupTbl] at h
  | cons p t ih =>
    by_cases hy : y = p.1
    · simp [lookupTbl, hy] at h
      rw [hy, ← h]
      simp
    · simp [lookupTbl, hy] at h
      exact List.mem_cons_of_mem _ (ih h)

theorem replace2_cons_ne {x a : Char} (b r : Char) (h : ¬x = a) (l : List Char) :
    replace2 a b r (x :: l) = x :: replace2 a b r l := by
  cases l <;> simp [replace2, h]

theorem replace2_cons_head_ne {a b : Char} (r : Char) {l : List Char}
    (h : l.head? ≠ some b) : replace2 a b r (a :: l) = a :: replace2 a b r l := by
  cases l with
  | nil => simp [replace2]
  | cons y t =>
    have hy : ¬y = b := by simpa using h
    simp [replace2, hy]

theorem unescScan_cons_ne {x a : Char} (tbl : List (Char × Char)) (h : ¬x = a)
    (l : List Char) : unescScan a tbl (x :: l) = x :: unescScan a tbl l := by
  cases l <;> simp [unescScan, h]

theorem unescScan_nil_tbl (a : Char) : ∀ l, unescScan a [] l = l := by
  intro l
  induction l using unescScan.induct a [] with
  | case1 => rfl
  | case2 x => rfl
  | case3 y rest v hlook ih => simp [lookupTbl] at hlook
  | case4 y rest hlook ih => simp [unescScan, lookupTbl, ih]
  | case5 x y rest hxa ih => simp [unescScan, hxa, ih]

theorem unescScan_head (a : Char) (tbl : List (Char × Char)) (l : List Char) :
    (unescScan a tbl l).head? = l.head? ∨
      ∃ p ∈ tbl, (unescScan a tbl l).head? = some p.2 := by
  cases l with
  | nil => left; rfl
  | cons x t =>
    cases t with
    | nil => left; simp [unescScan]
    | cons y rest =>
      by_cases hx : x = a
      · subst hx
        cases hl : lookupTbl y tbl with
        | none => left; simp [unescScan, hl]
        | some v =>
          right
          exact ⟨(y, v), lookupTbl_mem hl, by simp [unescScan, hl]⟩
      · left; simp [unescScan, hx]

theorem replace2_unescScan_append (a b r : Char) (tbl : List (Char × Char))
    (hba : ¬b = a)
    (hbk : lookupTbl b tbl = none)
    (hva : ∀ p ∈ tbl, p.2 ≠ a)
    (hvb : ∀ p ∈ tbl, p.2 ≠ b) :
    ∀ l, replace2 a b r (unescScan a tbl l) = unescScan a (tbl ++ [(b, r)]) l := by
  intro l
  induction l using unescScan.induct a tbl with
  | case1 => simp [unescScan, replace2]
  | case2 x => simp [unescScan, replace2]
  | case3 y rest v hlook ih =>
    have hv_a : ¬v = a := hva (y, v) (lookupTbl_mem hlook)
    have hl2 : lookupTbl y (tbl ++ [(b, r)]) = some v := lookupTbl_append_of_some _ hlook
    rw [show unescScan a tbl (a :: y :: rest) = v :: unescScan a tbl rest by
          simp [unescScan, hlook],
        replace2_cons_ne b r hv_a, ih,
        show unescScan a (tbl ++ [(b, r)]) (a :: y :: rest)
            = v :: unescScan a (tbl ++ [(b, r)]) rest by simp [unescScan, hl2]]
  | case4 y rest hlook ih =>
    by_cases hyb : y = b
    · subst hyb
      have h1 : unescScan a tbl (y :: rest) = y :: unescScan a tbl rest :=
        unescScan_cons_ne tbl hba rest
      have h2 : unescScan a (tbl ++ [(y, r)]) (y :: rest)
          = y :: unescScan a (tbl ++ [(y, r)]) rest :=
        unescScan_cons_ne _ hba rest
      rw [h1, h2, replace2_cons_ne y r hba] at ih
      have ih2 : replace2 a y r (unescScan a tbl rest)
          = unescScan a (tbl ++ [(y, r)]) rest := by
        injection ih
      have hl2 : lookupTbl y (tbl ++ [(y, r)]) = some r := by
        rw [lookupTbl_append_of_none _ hbk]; simp [lookupTbl]
      rw [show unescScan a tbl (a :: y :: rest) = a :: y :: unescScan a tbl rest by
            simp [unescScan, hlook, h1],
          show replace2 a y r (a :: y :: unescScan a tbl rest)
              = r :: replace2 a y r (unescScan a tbl rest) by simp [replace2],
          ih2,
          show unescScan a (tbl ++ [(y, r)]) (a :: y :: rest)
              = r :: unescScan a (tbl ++ [(y, r)]) rest by simp [unescScan, hl2]]
    · have hl2 : lookupTbl y (tbl ++ [(b, r)]) = none := by
        rw [lookupTbl_append_of_none _ hlook]; simp [lookupTbl, hyb]
      have hhead : (unescScan a tbl (y :: rest)).head? ≠ some b := by
        rcases unescScan_head a tbl (y :: rest) with h | ⟨p, hp, h⟩
        · rw [h]; simp [hyb]
        · rw [h]; simpa using hvb p hp
      rw [show unescScan a tbl (a :: y :: rest) = a :: unescScan a tbl (y :: rest) by
            simp [unescScan, hlook],
          replace2_cons_head_ne r hhead, ih,
          show unescScan a (tbl ++ [(b, r)]) (a :: y :: rest)
              = a :: unescScan a (tbl ++ [(b, r)]) (y :: rest) by simp [unescScan, hl2]]
  | case5 x y rest hxa ih =>
    rw [unescScan_cons_ne tbl hxa, replace2_cons_ne b r hxa, ih,
      unescScan_cons_ne _ hxa]

theorem replace2_eq_unescScan_single (a b r : Char) (hba : ¬b = a) :
    ∀ l, replace2 a b r l = unescScan a [(b, r)] l := by
  intro l
  have h := replace2_unescScan_append a b r [] hba (by simp [lookupTbl])
    (by simp) (by simp) l
  rw [unescScan_nil_tbl] at h
  simpa using h

theorem unescScan_congr (a : Char) (t1 t2 : List (Char × Char))
    (h : ∀ y, lookupTbl y t1 = lookupTbl y t2) :
    ∀ l, unescScan a t1 l = unescScan a t2 l := by
  intro l
  induction l using unescScan.induct a t1 with
  | case1 => rfl
  | case2 x => rfl
  | case3 y rest v hlook ih =>
    have h2 : lookupTbl y t2 = some v := by rw [← h y]; exact hlook
    simp [unescScan, hlook, h2, ih]
  | case4 y rest hlook ih =>
    have h2 : lookupTbl y t2 = none := by rw [← h y]; exact hlook
    simp [unescScan, hlook, h2, ih]
  | case5 x y rest hxa ih => simp [unescScan, hxa, ih]

theorem unescWith_source_eq_scan (l : List Char) :
    unescWith escapeMap l = replace2 '\\' '\\' '\\' (unescScan '\\' unescTblSource l) := by
  show replace2 '\\' '\\' '\\' (replace2 '\\' '/' '/' (replace2 '\\' 's' ' '
      (replace2 '\\' 'p' '|' (replace2 '\\' 'a' '\x07' (replace2 '\\' 'b' '\x08'
      (replace2 '\\' 'f' '\x0c' (replace2 '\\' 'n' '\n' (replace2 '\\' 'r' '\r'
      (replace2 '\\' 't' '\t' (replace2 '\\' 'v' '\x0b' l)))))))))) = _
  rw [replace2_eq_unescScan_single '\\' 'v' '\x0b' (by decide)]
  rw [replace2_unescScan_append '\\' 't' '\t' [('v', '\x0b')]
      (by decide) (by decide) (by decide) (by decide)]
  simp only [List.cons_append, List.nil_append]
  rw [replace2_unescScan_append '\\' 'r' '\r' [('v', '\x0b'), ('t', '\t')]
      (by decide) (by decide) (by decide) (by decide)]
  simp only [List.cons_append, List.nil_append]
  rw [replace2_unescScan_append '\\' 'n' '\n'
      [('v', '\x0b'), ('t', '\t'), ('r', '\r')]
      (by decide) (by decide) (by decide) (by decide)]
  simp only [List.cons_append, List.nil_append]
  rw [replace2_unescScan_append '\\' 'f' '\x0c'
      [('v', '\x0b'), ('t', '\t'), ('r', '\r'), ('n', '\n')]
      (by decide) (by decide) (by decide) (by decide)]
  simp only [List.cons_append, List.nil_append]
  rw [replace2_unescScan_append '\\' 'b' '\x08'
      [('v', '\x0b'), ('t', '\t'), ('r', '\r'), ('n', '\n'), ('f', '\x0c')]
      (by decide) (by decide) (by decide) (by decide)]
  simp only [List.cons_append, List.nil_append]
  rw [replace2_unescScan_append '\\' 'a' '\x07'
      [('v', '\x0b'), ('t', '\t'), ('r', '\r'), ('n', '\n'), ('f', '\x0c'),
       ('b', '\x08')]
      (by decide) (by decide) (by decide) (by decide)]
  simp only [List.cons_append, List.nil_append]
  rw [replace2_unescScan_append '\\' 'p' '|'
      [('v', '\x0b'), ('t', '\t'), ('r', '\r'), ('n', '\n'), ('f', '\x0c'),
       ('b', '\x08'), ('a', '\x07')]
      (by decide) (by decide) (by decide) (by decide)]
  simp only [List.cons_append, List.nil_append]
  rw [replace2_unescScan_append '\\' 's' ' '
      [('v', '\x0b'), ('t', '\t'), ('r', '\r'), ('n', '\n'), ('f', '\x0c'),
       ('b', '\x08'), ('a', '\x07'), ('p', '|')]
      (by decide) (by decide) (by decide) (by decide)]
  simp only [List.cons_append, List.nil_append]
  rw [replace2_unescScan_append '\\' '/' '/'
      [('v', '\x0b'), ('t', '\t'), ('r', '\r'), ('n', '\n'), ('f', '\x0c'),
       ('b', '\x08'), ('a', '\x07'), ('p', '|'), ('s', ' ')]
      (by decide) (by decide) (by decide) (by decide)]
  simp only [List.cons_append, List.nil_append]
  rfl

theorem unescWith_specOrder_eq_scan (l : List Char) :
    unescWith escapeMapSpecOrder l
      = replace2 '\\' '\\' '\\' (unescScan '\\' unescTblSpecOrder l) := by
  show replace2 '\\' '\\' '\\' (replace2 '\\' 's' ' ' (replace2 '\\' 'p' '|'
      (replace2 '\\' 'a' '\x07' (replace2 '\\' 'b' '\x08' (replace2 '\\' 'f' '\x0c'
      (replace2 '\\' 'n' '\n' (replace2 '\\' 'r' '\r' (replace2 '\\' 't' '\t'
      (replace2 '\\' 'v' '\x0b' (replace2 '\\' '/' '/' l)))))))))) = _
  rw [replace2_eq_unescScan_single '\\' '/' '/' (by decide)]
  rw [replace2_unescScan_append '\\' 'v' '\x0b' [('/', '/')]
      (by decide) (by decide) (by decide) (by decide)]
  simp only [List.cons_append, List.nil_append]
  rw [replace2_unescScan_append '\\' 't' '\t' [('/', '/'), ('v', '\x0b')]
      (by decide) (by decide) (by decide) (by decide)]
  simp only [List.cons_append, List.nil_append]
  rw [replace2_unescScan_append '\\' 'r' '\r'
      [('/', '/'), ('v', '\x0b'), ('t', '\t')]
      (by decide) (by decide) (by decide) (by decide)]
  simp only [List.cons_append, List.nil_append]
  rw [replace2_unescScan_append '\\' 'n' '\n'
      [('/', '/'), ('v', '\x0b'), ('t', '\t'), ('r', '\r')]
      (by decide) (by decide) (by decide) (by decide)]
  simp only [List.cons_append, List.nil_append]
  rw [replace2_unescScan_append '\\' 'f' '\x0c'
      [('/', '/'), ('v', '\x0b'), ('t', '\t'), ('r', '\r'), ('n', '\n')]
      (by decide) (by decide) (by decide) (by decide)]
  simp only [List.cons_append, List.nil_append]
  rw [replace2_unescScan_append '\\' 'b' '\x08'
      [('/', '/'), ('v', '\x0b'), ('t', '\t'), ('r', '\r'), ('n', '\n'),
       ('f', '\x0c')]
      (by decide) (by decide) (by decide) (by decide)]
  simp only [List.cons_append, List.nil_append]
  rw [replace2_unescScan_append '\\' 'a' '\x07'
      [('/', '/'), ('v', '\x0b'), ('t', '\t'), ('r', '\r'), ('n', '\n'),
       ('f', '\x0c'), ('b', '\x08')]
      (by decide) (by decide) (by decide) (by decide)]
  simp only [List.cons_append, List.nil_append]
  rw [replace2_unescScan_append '\\' 'p' '|'
      [('/', '/'), ('v', '\x0b'), ('t', '\t'), ('r', '\r'), ('n', '\n'),
       ('f', '\x0c'), ('b', '\x08'), ('a', '\x07')]
      (by decide) (by decide) (by decide) (by decide)]
  simp only [List.cons_append, List.nil_append]
  rw [replace2_unescScan_append '\\' 's' ' '
      [('/', '/'), ('v', '\x0b'), ('t', '\t'), ('r', '\r'), ('n', '\n'),
       ('f', '\x0c'), ('b', '\x08'), ('a', '\x07'), ('p', '|')]
      (by decide) (by decide) (by decide) (by decide)]
  simp only [List.cons_append, List.nil_append]
  rfl

theorem lookupTbl_tables_agree (y : Char) :
    lookupTbl y unescTblSource = lookupTbl y unescTblSpecOrder := by
  by_cases h1 : y = 'v'
  · subst h1; decide
  by_cases h2 : y = 't'
  · subst h2; decide
  by_cases h3 : y = 'r'
  · subst h3; decide
  by_cases h4 : y = 'n'
  · subst h4; decide
  by_cases h5 : y = 'f'
  · subst h5; decide
  by_cases h6 : y = 'b'
  · subst h6; decide
  by_cases h7 : y = 'a'
  · subst h7; decide
  by_cases h8 : y = 'p'
  · subst h8; decide
  by_cases h9 : y = 's'
  · subst h9; decide
  by_cases h10 : y = '/'
  · subst h10; decide
  simp [lookupTbl, unescTblSource, unescTblSpecOrder,
    h1, h2, h3, h4, h5, h6, h7, h8, h9, h10]

theorem unescape_eq_unescapeSpecOrdered (l : List Char) :
    unescape l = unescapeSpecOrdered l := by
  show unescWith escapeMap l = unescWith escapeMapSpecOrder l
  rw [unescWith_source_eq_scan, unescWith_specOrder_eq_scan,
    unescScan_congr '\\' unescTblSource unescTblSpecOrder lookupTbl_tables_agree]

theorem processLine_preserves_error_slot (s : ConnState) (l : List Char)
    (h : startsWith "error".data l = false) :
    (processLine s l).response_error = s.response_error := by
  by_cases h1 : startsWith "notify".data l = true
  · cases hp : parse_notify l <;> simp [processLine, h1, hp]
  · simp [processLine, h1, h]

theorem sendAwait_no_error : ∀ (sched : List (List Char)) (s : ConnState),
    s.response_error = none →
    (∀ l ∈ sched, startsWith "error".data l = false) →
    (sendAwait s sched).1 = .timeout ∧ (sendAwait s sched).2.send_lock = false := by
  intro sched
  induction sched with
  | nil => intro s hs _; simp [sendAwait, hs]
  | cons l rest ih =>
    intro s hs hl
    have h1 : startsWith "error".data l = false := hl l (by simp)
    have h2 : (processLine s l).response_error = none := by
      rw [processLine_preserves_error_slot s l h1, hs]
    have h3 := ih (processLine s l) h2 (fun t ht => hl t (by simp [ht]))
    simpa [sendAwait, hs] using h3

/-- C1: the specification guarantees `unescape(escape(s)) == s` for every
string, but the code violates it at the two-character string
backslash-`v`: `escape` produces backslash backslash `v`, and the
sequential `unescape` replacements first rewrite the trailing
backslash-`v` pair to a vertical tab, so the round trip yields backslash
followed by a vertical tab instead of the original string. -/
theorem roundtrip_fails_backslash_v :
    unescape (escape ['\\', 'v']) = ['\\', '\x0b'] ∧
      ¬ unescape (escape ['\\', 'v']) = ['\\', 'v'] := by decide

/-- C2 counterexample: the line `notifyfoo reasonid=1` begins with the
notification prefix, yet the event model recognizes no such event type and
the receive loop enqueues nothing, refuting "every inbound line beginning
with the notification prefix 'notify' is parsed as an event and enqueued
onto the event queue". -/
theorem notify_unknown_type_not_enqueued :
    startsWith "notify".data "notifyfoo reasonid=1".data = true ∧
      (processLine ⟨[], none, [], false⟩ "notifyfoo reasonid=1".data).event_queue
        = ([] : List TS3Event) := by decide

/-- C2 (amended): in every state, a line beginning with `notify` goes only
to the event path — it is handed to the event parser and an event is
enqueued exactly when the parser recognizes its type — and never touches
the response buffer or the error slot; a line beginning with `error` goes
only to the error slot (stored when the error line parses, everything
unchanged when the id is malformed); every other line goes only to the
response buffer. -/
theorem receive_loop_routing (s : ConnState) (line : List Char) :
    ((processLine s line).pending_response
      = if startsWith "notify".data line || startsWith "error".data line
        then s.pending_response else s.pending_response ++ [line]) ∧
    ((processLine s line).event_queue
      = if startsWith "notify".data line
        then s.event_queue ++ (parse_notify line).toList else s.event_queue) ∧
    ((processLine s line).response_error
      = if startsWith "notify".data line then s.response_error
        else if startsWith "error".data line then
          match parse_error line with
          | .ok v => v
          | .error _ => s.response_error
        else s.response_error) := by
  by_cases h1 : startsWith "notify".data line = true
  · cases hp : parse_notify line <;> simp [processLine, h1, hp]
  · by_cases h2 : startsWith "error".data line = true
    · cases he : parse_error line <;> simp [processLine, h1, h2, he]
    · simp [processLine, h1, h2]

/-- C3: a command call that observes no `error`-prefixed line within the
configured timeout yields the distinguished timeout failure with the
command lock released, and every call resets the pending-response buffer
and the pending-error slot on entry (after acquiring the lock,
unconditionally), so the next command starts from clean buffers. -/
theorem send_timeout_lock_released (s : ConnState) (sched : List (List Char))
    (h : ∀ l ∈ sched, startsWith "error".data l = false) :
    (send s sched).1 = .timeout ∧ (send s sched).2.send_lock = false ∧
      (sendEnter s).pending_response = [] ∧ (sendEnter s).response_error = none := by
  have h1 := sendAwait_no_error sched (sendEnter s) rfl h
  exact ⟨h1.1, h1.2, rfl, rfl⟩

theorem send_timeout_lock_released_witness :
    (send ⟨["cid=1".data], some (mkTS3QueryError 1 "x".data), [], false⟩
        ["channel_name=lobby".data]).1 = .timeout ∧
    (send ⟨["cid=1".data], some (mkTS3QueryError 1 "x".data), [], false⟩
        ["channel_name=lobby".data]).2.send_lock = false ∧
    (sendEnter ⟨["cid=1".data], some (mkTS3QueryError 1 "x".data), [], false⟩).pending_response
        = [] ∧
    (sendEnter ⟨["cid=1".data], some (mkTS3QueryError 1 "x".data), [], false⟩).response_error
        = none :=
  send_timeout_lock_released
    ⟨["cid=1".data], some (mkTS3QueryError 1 "x".data), [], false⟩
    ["channel_name=lobby".data] (by decide)

theorem mem_dictInsert {p : List Char × List Char} (k v : List Char) :
    ∀ m, p ∈ dictInsert k v m → p = (k, v) ∨ p ∈ m := by
  intro m
  induction m with
  | nil => intro h; simp [dictInsert] at h; left; exact h
  | cons q rest ih =>
    intro h
    by_cases hq : q.1 = k
    · simp [dictInsert, hq] at h
      rcases h with h | h
      · left; exact h
      · right; exact List.mem_cons_of_mem _ h
    · simp [dictInsert, hq] at h
      rcases h with h | h
      · right; exact List.mem_cons.mpr (Or.inl h)
      · rcases ih h with h2 | h2
        · left; exact h2
        · right; exact List.mem_cons_of_mem _ h2

theorem parseDictAux_entry_src :
    ∀ (ts : List (List Char)) (acc : List (List Char × List Char))
      (p : List Char × List Char), p ∈ parseDictAux ts acc →
      p ∈ acc ∨ ∃ t ∈ ts,
        (t.contains '=' = true ∧ p.1 = (splitOnceChar '=' t).1
          ∧ p.2 = unescape (splitOnceChar '=' t).2)
        ∨ (t.contains '=' = false ∧ t ≠ [] ∧ p = (t, [])) := by
  intro ts
  induction ts with
  | nil => intro acc p h; left; exact h
  | cons part rest ih =>
    intro acc p h
    by_cases hc : part.contains '=' = true
    · simp only [parseDictAux, hc, if_pos] at h
      rcases ih _ p h with h2 | ⟨t, ht, h3⟩
      · rcases mem_dictInsert _ _ _ h2 with h4 | h4
        · right
          refine ⟨part, List.mem_cons_self _ _, Or.inl ⟨hc, ?_, ?_⟩⟩ <;>
            simp [h4]
        · left; exact h4
      · right; exact ⟨t, List.mem_cons_of_mem _ ht, h3⟩
    · simp only [parseDictAux, hc, Bool.not_eq_true, if_neg] at h
      by_cases hne : part = []
      · rw [if_neg (by simp [hne])] at h
        rcases ih _ p h with h2 | ⟨t, ht, h3⟩
        · left; exact h2
        · right; exact ⟨t, List.mem_cons_of_mem _ ht, h3⟩
      · rw [if_pos hne] at h
        rcases ih _ p h with h2 | ⟨t, ht, h3⟩
        · rcases mem_dictInsert _ _ _ h2 with h4 | h4
          · right
            refine ⟨part, List.mem_cons_self _ _,
              Or.inr ⟨by simpa using hc, hne, h4⟩⟩
          · left; exact h4
        · right; exact ⟨t, List.mem_cons_of_mem _ ht, h3⟩

theorem parseNotifyFieldsAux_entry_src :
    ∀ (ts : List (List Char)) (acc : List (List Char × List Char))
      (p : List Char × List Char), p ∈ parseNotifyFieldsAux ts acc →
      p ∈ acc ∨ ∃ t ∈ ts, t.contains '=' = true
        ∧ p.1 = (splitOnceChar '=' t).1 ∧ p.2 = unescape (splitOnceChar '=' t).2 := by
  intro ts
  induction ts with
  | nil => intro acc p h; left; exact h
  | cons part rest ih =>
    intro acc p h
    by_cases hc : part.contains '=' = true
    · simp only [parseNotifyFieldsAux, hc, if_pos] at h
      rcases ih _ p h with h2 | ⟨t, ht, h3⟩
      · rcases mem_dictInsert _ _ _ h2 with h4 | h4
        · right
          refine ⟨part, List.mem_cons_self _ _, hc, ?_, ?_⟩ <;> simp [h4]
        · left; exact h4
      · right; exact ⟨t, List.mem_cons_of_mem _ ht, h3⟩
    · simp only [parseNotifyFieldsAux, hc, if_neg, Bool.not_eq_true] at h
      rcases ih _ p h with h2 | ⟨t, ht, h3⟩
      · left; exact h2
      · right; exact ⟨t, List.mem_cons_of_mem _ ht, h3⟩

theorem parseErrorTokens_total :
    ∀ (ts : List (List Char)) (i : Int) (m : List Char),
      (∀ t ∈ ts, startsWith "id=".data t = true → (pyInt (t.drop 3)).isSome = true) →
      ∃ r, parseErrorTokens i m ts = .ok r := by
  intro ts
  induction ts with
  | nil => intro i m _; exact ⟨(i, m), rfl⟩
  | cons part rest ih =>
    intro i m h
    by_cases hid : startsWith "id=".data part = true
    · have hs := h part (List.mem_cons_self _ _) hid
      cases hp : pyInt (part.drop 3) with
      | none => rw [hp] at hs; simp at hs
      | some n =>
        simp only [parseErrorTokens, hid, if_pos, hp]
        exact ih n m (fun t ht => h t (List.mem_cons_of_mem _ ht))
    · by_cases hmsg : startsWith "msg=".data part = true
      · simp only [parseErrorTokens, hid, hmsg, if_pos, if_neg,
          Bool.not_eq_true]
        exact ih i (part.drop 4) (fun t ht => h t (List.mem_cons_of_mem _ ht))
      · simp only [parseErrorTokens, hid, hmsg, if_neg, Bool.not_eq_true]
        exact ih i m (fun t ht => h t (List.mem_cons_of_mem _ ht))

theorem parseErrorTokens_raises :
    ∀ (ts : List (List Char)) (i : Int) (m : List Char),
      (∃ t ∈ ts, startsWith "id=".data t = true ∧ pyInt (t.drop 3) = none) →
      parseErrorTokens i m ts = .error () := by
  intro ts
  induction ts with
  | nil => intro i m h; simp at h
  | cons part rest ih =>
    intro i m ⟨t, ht, h1, h2⟩
    rcases List.mem_cons.mp ht with rfl | htr
    · simp [parseErrorTokens, h1, h2]
    · by_cases hid : startsWith "id=".data part = true
      · cases hp : pyInt (part.drop 3) with
        | none => simp [parseErrorTokens, hid, hp]
        | some n =>
          simp only [parseErrorTokens, hid, if_pos, hp]
          exact ih n m ⟨t, htr, h1, h2⟩
      · by_cases hmsg : startsWith "msg=".data part = true
        · simp only [parseErrorTokens, hid, hmsg, if_pos, if_neg,
            Bool.not_eq_true]
          exact ih i (part.drop 4) ⟨t, htr, h1, h2⟩
        · simp only [parseErrorTokens, hid, hmsg, if_neg, Bool.not_eq_true]
          exact ih i m ⟨t, htr, h1, h2⟩

/-- C5: `_parse_error` scans the tokens after the literal `error` for
`id=` (default 0) and `msg=` (default "ok"); a scan ending with id 0
yields no failure, a nonzero id yields the typed `TS3QueryError` carrying
the numeric id, the unescaped message and the code looked up from the id,
with ids outside the lookup table mapped to the undefined sentinel; in
particular `error id=0 msg=ok` yields no failure and
`error id=512 msg=invalid\sparameter` yields the error with id 512 and
message "invalid parameter". -/
theorem parse_error_line_spec :
    (∀ line msg, parseErrorTokens 0 "ok".data ((splitOnChar ' ' line).drop 1)
        = .ok (0, msg) → parse_error line = .ok none) ∧
    (∀ line i msg, parseErrorTokens 0 "ok".data ((splitOnChar ' ' line).drop 1)
        = .ok (i, msg) → ¬ i = 0 →
        parse_error line = .ok (some ⟨i, unescape msg, TS3ErrorCode.ofId i⟩)) ∧
    (∀ i, i ∉ ts3ErrorCodeIds → TS3ErrorCode.ofId i = .undefined) ∧
    parse_error "error id=0 msg=ok".data = .ok none ∧
    parse_error "error id=512 msg=invalid\\sparameter".data
      = .ok (some ⟨512, "invalid parameter".data, TS3ErrorCode.ofId 512⟩) ∧
    parse_error "error".data = .ok none := by
  refine ⟨?_, ?_, ?_, by rfl, by rfl, by rfl⟩
  · intro line msg h
    unfold parse_error
    rw [h]
    simp
  · intro line i msg h hi
    unfold parse_error
    rw [h]
    simp [mkTS3QueryError, hi]
  · intro i hi; simp [TS3ErrorCode.ofId, hi]

theorem parse_error_line_spec_witness :
    parse_error "error msg=q".data = .ok none ∧
    parse_error "error id=7".data
      = .ok (some ⟨7, unescape "ok".data, TS3ErrorCode.ofId 7⟩) ∧
    TS3ErrorCode.ofId 512 = .undefined :=
  ⟨parse_error_line_spec.1 "error msg=q".data "q".data (by rfl),
   parse_error_line_spec.2.1 "error id=7".data 7 "ok".data (by rfl) (by decide),
   parse_error_line_spec.2.2.1 512 (by decide)⟩

/-- C6: `build_command` produces the verb, the `-`-prefixed flags and the
`key=escaped(value)` pairs joined by single spaces, followed by the
two-character line terminator, stringifying integer values first; in
particular the login example produces
`login client_login_name=root client_login_password=pw\sone` plus the
terminator. -/
theorem build_command_spec :
    (∀ (cmd : List Char) (args : List (List Char))
        (kwargs : List (List Char × PyVal)),
        build_command cmd args kwargs
          = List.intercalate [' ']
              ([cmd] ++ args.map (fun a => '-' :: a)
                ++ kwargs.map (fun p => p.1 ++ '=' :: escape (pyStr p.2)))
            ++ ['\n', '\r']) ∧
    build_command "login".data []
        [("client_login_name".data, .s "root".data),
         ("client_login_password".data, .s "pw one".data)]
      = "login client_login_name=root client_login_password=pw\\sone\n\r".data ∧
    build_command "use".data [] [("sid".data, .i 7)] = "use sid=7\n\r".data ∧
    build_command "clientlist".data ["uid".data, "away".data] []
      = "clientlist -uid -away\n\r".data :=
  ⟨fun _ _ _ => rfl, by decide, by decide, by decide⟩

/-- C7: `parse_response_to_dict` splits on spaces, splits each token
containing `=` at the first `=` into a key and an unescaped value, and
maps each non-empty bare token to the empty value — every entry of the
result arises from a token in one of these two ways — and
`parse_response_to_list` splits on `|` and parses each non-empty segment;
in particular the two examples of the spec hold, as does the bare-flag
example. -/
theorem parse_line_maps_spec :
    (∀ (r : List Char) (p : List Char × List Char),
        p ∈ parse_response_to_dict r → ∃ t ∈ splitOnChar ' ' r,
        (t.contains '=' = true ∧ p.1 = (splitOnceChar '=' t).1
          ∧ p.2 = unescape (splitOnceChar '=' t).2)
        ∨ (t.contains '=' = false ∧ t ≠ [] ∧ p = (t, []))) ∧
    (∀ r, parse_response_to_list r
        = ((splitOnChar '|' r).filter (fun item => item ≠ [])).map
            parse_response_to_dict) ∧
    parse_response_to_dict "client_id=5 client_away=1".data
      = [("client_id".data, "5".data), ("client_away".data, "1".data)] ∧
    parse_response_to_list "a=1|a=2".data
      = [[("a".data, "1".data)], [("a".data, "2".data)]] ∧
    parse_response_to_dict "flag a=1".data
      = [("flag".data, []), ("a".data, "1".data)] := by
  refine ⟨?_, fun _ => rfl, by decide, by decide, by decide⟩
  intro r p h
  rcases parseDictAux_entry_src _ _ p h with h2 | h2
  · simp at h2
  · exact h2

theorem parse_line_maps_spec_witness :
    ∃ t ∈ splitOnChar ' ' "a=1".data,
      (t.contains '=' = true ∧ ("a".data, "1".data).1 = (splitOnceChar '=' t).1
        ∧ ("a".data, "1".data).2 = unescape (splitOnceChar '=' t).2)
      ∨ (t.contains '=' = false ∧ t ≠ [] ∧ ("a".data, "1".data) = (t, [])) :=
  parse_line_maps_spec.1 "a=1".data ("a".data, "1".data) (by decide)

/-- C8: for every field map, parsing the `notifyclientmoved` type yields
the moved-by-other variant exactly when the map has an `invokerid` key and
the moved-self variant exactly when it does not; on the spec's example map
the result is the moved-self variant, and adding the invoker fields gives
the moved-by-other variant carrying invoker id, name and uid. -/
theorem client_moved_dispatch (data : List (List Char × List Char)) :
    (isClientMovedByOther (parse_event "notifyclientmoved".data data)
        = dictHasKey "invokerid".data data) ∧
    (isClientMovedSelf (parse_event "notifyclientmoved".data data)
        = !(dictHasKey "invokerid".data data)) ∧
    parse_event "notifyclientmoved".data
        [("clid".data, "5".data), ("ctid".data, "2".data), ("reasonid".data, "1".data)]
      = some (.clientMovedSelf
          [("clid".data, "5".data), ("ctid".data, "2".data), ("reasonid".data, "1".data)]
          5 2 1) ∧
    parse_event "notifyclientmoved".data
        [("clid".data, "5".data), ("ctid".data, "2".data), ("reasonid".data, "1".data),
         ("invokerid".data, "9".data), ("invokername".data, "Ann".data),
         ("invokeruid".data, "uid1".data)]
      = some (.clientMoved
          [("clid".data, "5".data), ("ctid".data, "2".data), ("reasonid".data, "1".data),
           ("invokerid".data, "9".data), ("invokername".data, "Ann".data),
           ("invokeruid".data, "uid1".data)]
          5 2 1 9 "Ann".data "uid1".data) := by
  have hred : parse_event "notifyclientmoved".data data
      = if dictHasKey "invokerid".data data then
          some (.clientMoved data
            (pyIntD (dictGet "clid".data "-1".data data) (-1))
            (pyIntD (dictGet "ctid".data "-1".data data) (-1))
            (pyIntD (dictGet "reasonid".data "-1".data data) (-1))
            (pyIntD (dictGet "invokerid".data "-1".data data) (-1))
            (dictGet "invokername".data [] data)
            (dictGet "invokeruid".data [] data))
        else
          some (.clientMovedSelf data
            (pyIntD (dictGet "clid".data "-1".data data) (-1))
            (pyIntD (dictGet "ctid".data "-1".data data) (-1))
            (pyIntD (dictGet "reasonid".data "-1".data data) (-1))) := rfl
  refine ⟨?_, ?_, by decide, by decide⟩
  · rw [hred]
    cases h : dictHasKey "invokerid".data data <;>
      simp [isClientMovedByOther, h]
  · rw [hred]
    cases h : dictHasKey "invokerid".data data <;>
      simp [isClientMovedSelf, h]

/-- C9: every entry of the raw field map the connection engine hands to
the event model comes from a token containing `=` (key before the first
`=`, value unescaped) — bare tokens are silently dropped — unlike the
codec's `parse_response_to_dict`, which maps bare tokens to empty values,
as the contrasting example shows. -/
theorem notify_fields_drop_bare_tokens :
    (∀ (ds : List Char) (p : List Char × List Char),
        p ∈ parseNotifyFields ds → ∃ t ∈ splitOnChar ' ' ds,
        t.contains '=' = true ∧ p.1 = (splitOnceChar '=' t).1
          ∧ p.2 = unescape (splitOnceChar '=' t).2) ∧
    parseNotifyFields "away clid=5".data = [("clid".data, "5".data)] ∧
    parse_response_to_dict "away clid=5".data
      = [("away".data, []), ("clid".data, "5".data)] := by
  refine ⟨?_, by decide, by decide⟩
  intro ds p h
  rcases parseNotifyFieldsAux_entry_src _ _ p h with h2 | h2
  · simp at h2
  · exact h2

theorem notify_fields_drop_bare_tokens_witness :
    ∃ t ∈ splitOnChar ' ' "away clid=5".data,
      t.contains '=' = true ∧ ("clid".data, "5".data).1 = (splitOnceChar '=' t).1
        ∧ ("clid".data, "5".data).2 = unescape (splitOnceChar '=' t).2 :=
  notify_fields_drop_bare_tokens.1 "away clid=5".data ("clid".data, "5".data)
    (by decide)

/-- C10: `_parse_error` is partial in its id field — on
`error id=abc msg=ok` the integer conversion raises instead of the parser
returning a success marker or a typed failure, and it raises on every line
with some `id=` token whose value fails the `int()` conversion — while it
returns a result on every line all of whose `id=` tokens carry values
`int()` accepts. The partiality boundary is `int()`'s: underscore-grouped
(`id=1_0`) and whitespace-padded numerals convert successfully rather than
raising, as the two middle conjuncts pin down. -/
theorem parse_error_partial_id :
    parse_error "error id=abc msg=ok".data = .error () ∧
    parse_error "error id=1_0 msg=ok".data
      = .ok (some ⟨10, "ok".data, TS3ErrorCode.ofId 10⟩) ∧
    parse_error "error id=\t5 msg=ok".data
      = .ok (some ⟨5, "ok".data, TS3ErrorCode.ofId 5⟩) ∧
    (∀ line, (∃ t ∈ (splitOnChar ' ' line).drop 1,
        startsWith "id=".data t = true ∧ pyInt (t.drop 3) = none) →
      parse_error line = .error ()) ∧
    (∀ line, (∀ t ∈ (splitOnChar ' ' line).drop 1,
        startsWith "id=".data t = true → (pyInt (t.drop 3)).isSome = true) →
      ∃ r, parse_error line = .ok r) := by
  refine ⟨by rfl, by rfl, by rfl, ?_, ?_⟩
  · intro line h
    unfold parse_error
    rw [parseErrorTokens_raises _ 0 "ok".data h]
  · intro line h
    obtain ⟨r, hr⟩ := parseErrorTokens_total _ 0 "ok".data h
    refine ⟨if r.1 ≠ 0 then some (mkTS3QueryError r.1 r.2) else none, ?_⟩
    unfold parse_error
    rw [hr]
    by_cases h0 : r.1 = 0 <;> simp [h0]

theorem parse_error_partial_id_witness :
    parse_error "error id=zzz".data = .error () ∧
    ∃ r, parse_error "error id=512 msg=x".data = .ok r :=
  ⟨parse_error_partial_id.2.2.2.1 "error id=zzz".data (by decide),
   parse_error_partial_id.2.2.2.2 "error id=512 msg=x".data (by decide)⟩

/-- C4: `escape` applies the substitution table with the pairs of the
section-6 escape table in the order backslash, space, pipe, bell,
backspace, form-feed, newline, carriage return, tab, vertical tab, forward
slash (backslash first), and `unescape` applies the same table in exact
reverse order (backslash last): on every string the code's pipelines
coincide with the spec-ordered pipelines `escapeSpecOrdered` and
`unescapeSpecOrdered`. -/
theorem escape_unescape_spec_order (s : List Char) :
    escape s = escapeSpecOrdered s ∧ unescape s = unescapeSpecOrdered s :=
  ⟨escape_eq_escapeSpecOrdered s, unescape_eq_unescapeSpecOrdered s⟩

end KekoTS3
